import Mathlib

/-!
Verification development for the bluez-alsa IO core (src/io.c and the mSBC
helpers).  The definitions below are shallow embeddings of the C functions:
machine integers become `Nat`/`Int` with explicit `% 2^w` where overflow can
occur, buffers become `Nat → Nat` byte maps or `List` values, and the OS
surface (clocks, sockets, `write`) is replaced by explicit inputs and by
returning the bytes that would have been written.  Each theorem at the end of
the file settles one behavioural claim about this code.
-/

namespace BlueAlsa

/-! ## Rate pacer: `io_thread_time_sync` (io.c:260-293)

`struct io_sync` carries a reference monotonic time point `ts0`, the number of
frames transferred since `ts0` (a `uint32_t`), and the sampling frequency
(a `uint16_t`).  We model `ts0` in nanoseconds; the current monotonic clock
reading is passed in as `now_ns`.  `clock_gettime`/`difftimespec`/`nanosleep`
are not part of src/ (difftimespec lives in utils.c): following the spec,
`difftimespec(&a, &b, &r)` is the signed difference b − a and the function
sleeps exactly when the audio target exceeds the elapsed time; instead of
sleeping, the embedding returns a `Bool` saying whether `nanosleep` ran. -/

structure io_sync where
  ts0 : Nat
  frames : Nat
  sampling : Nat
deriving DecidableEq, Repr

/-- Playback duration of `frames` frames in microseconds, exactly as computed
by the C code: `1000000 * sec + 1000000 / sampling * res` over unsigned
integers (reduced mod 2^32, the width of the unsigned intermediate). -/
def io_sync_duration (sampling frames : Nat) : Nat :=
  (1000000 * (frames / sampling) + 1000000 / sampling * (frames % sampling)) % 4294967296

/-- The audio time point `ts_audio` in nanoseconds built from a frame count:
`tv_sec = frames / sampling`, `tv_nsec = 1000000000 / sampling * (frames % sampling)`. -/
def io_sync_audio_ns (sampling frames : Nat) : Nat :=
  (frames / sampling) * 1000000000 + 1000000000 / sampling * (frames % sampling)

/-- Shallow embedding of `io_thread_time_sync`.  Returns the updated pacing
state, whether `nanosleep` was invoked, and the returned duration. -/
def io_thread_time_sync (io : io_sync) (now_ns : Nat) (frames : Nat) :
    io_sync × Bool × Nat :=
  if frames = 0 then (io, false, 0)
  else
    let sampling := io.sampling
    let duration := io_sync_duration sampling frames
    let frames2 := (io.frames + frames) % 4294967296
    let overframes := sampling / 100
    let frames3 := if frames2 > overframes then frames2 - overframes else 0
    let ts_audio := io_sync_audio_ns sampling frames3
    let ts_clock := now_ns - io.ts0
    ({ io with frames := frames2 }, decide (ts_audio > ts_clock), duration)

/-! ## RTP header and the A2DP source packet streams (io.c:485-496, 590-605,
905-1042)

`rtp_header_t` (a2dp-rtp.h is not under src/; the spec gives the layout):
version (2 bits), payload type (7 bits), 16-bit big-endian sequence number,
32-bit big-endian timestamp.  The embedding keeps host-order numeric values;
`htons`/`htonl` only reorder bytes on the wire.  `markbit` is carried where
the code sets it (AAC fragmentation). -/

structure rtp_header_t where
  version : Nat
  paytype : Nat
  seq_number : Nat
  timestamp : Nat
deriving DecidableEq, Repr

/-- One iteration of the SBC source transfer loop per emitted packet
(io.c:590-605): the header is stamped with `htons(++seq_number)` and
`htonl(timestamp)`, the packet is written, and then
`timestamp += io_thread_time_sync(...)`.  The input list gives the duration
returned by the pacer after each packet; `seq` is `uint16_t`, `ts` is
`uint32_t`. -/
def io_thread_a2dp_source_sbc_packets (seq ts : Nat) :
    List Nat → List rtp_header_t
  | [] => []
  | d :: ds =>
    let seq2 := (seq + 1) % 65536
    { version := 2, paytype := 96, seq_number := seq2, timestamp := ts } ::
      io_thread_a2dp_source_sbc_packets seq2 ((ts + d) % 4294967296) ds

/-- The AAC source fragmentation loop (io.c:1002-1029).  One encoded
audioMuxElement of `payload_len` bytes sitting at `buf` (a byte map of the
region starting at `out_payload`) is sent as successive RTP packets:
`len = min payload_len payload_len_max`, `markbit = len < payload_len_max`,
`seq_number = htons(++seq_number)`, write of `rtp_header_len + len` bytes,
then `payload_len -= len` and
`memmove(out_payload, out_payload + ret, payload_len)` with
`ret = rtp_header_len + len` — note the source offset includes the RTP header
length.  Each emitted element is (payload bytes, seq_number, markbit).
The `Nat` fuel argument bounds the recursion; `aac_fragment` below passes
`payload_len`, which suffices whenever `payload_len_max > 0` (with
`payload_len_max = 0` the C loop would never terminate; that cannot arise
since `mtu_write > rtp_header_len`). -/
def aac_frag_go (payload_len_max rtp_header_len : Nat) :
    Nat → (Nat → Nat) → Nat → Nat → List (List Nat × Nat × Bool)
  | 0, _, _, _ => []
  | fuel + 1, buf, seq, payload_len =>
    let len := min payload_len payload_len_max
    let mark := decide (len < payload_len_max)
    let seq2 := (seq + 1) % 65536
    let content := (List.range len).map buf
    let rest := payload_len - len
    if rest = 0 then [(content, seq2, mark)]
    else
      (content, seq2, mark) ::
        aac_frag_go payload_len_max rtp_header_len fuel
          (fun i => if i < rest then buf (i + (rtp_header_len + len)) else buf i)
          seq2 rest

/-- Fragmentation of one nonempty encoded AAC frame, as performed by
`io_thread_a2dp_source_aac` with `payload_len_max = mtu_write - rtp_header_len`.
An empty payload yields no packet (the loop body is guarded by
`out_args.numOutBytes > 0`). -/
def aac_fragment (mtu_write rtp_header_len : Nat) (buf : Nat → Nat)
    (seq payload_len : Nat) : List (List Nat × Nat × Bool) :=
  aac_frag_go (mtu_write - rtp_header_len) rtp_header_len payload_len buf seq payload_len

/-- Number of RTP packets emitted for one encoded AAC frame (the number of
iterations of the fragmentation loop). -/
def aac_frag_count (payload_len_max : Nat) : Nat → Nat → Nat
  | 0, _ => 0
  | fuel + 1, payload_len =>
    let len := min payload_len payload_len_max
    let rest := payload_len - len
    if rest = 0 then 1 else 1 + aac_frag_count payload_len_max fuel rest

/-- RTP headers produced while fragmenting one AAC frame: the timestamp was
stamped once (`rtp_header->timestamp = htonl(timestamp)`, io.c:990) before the
fragmentation loop, so every fragment of the frame carries the same timestamp,
while the sequence number is incremented per packet.  Returns the packets and
the sequence counter after the frame. -/
def aac_frame_rtp (payload_len_max : Nat) :
    Nat → Nat → Nat → Nat → List rtp_header_t × Nat
  | 0, seq, _, _ => ([], seq)
  | fuel + 1, seq, ts, payload_len =>
    let len := min payload_len payload_len_max
    let seq2 := (seq + 1) % 65536
    let rest := payload_len - len
    let pkt : rtp_header_t :=
      { version := 2, paytype := 96, seq_number := seq2, timestamp := ts }
    if rest = 0 then ([pkt], seq2)
    else
      let next := aac_frame_rtp payload_len_max fuel seq2 ts rest
      (pkt :: next.1, next.2)

/-- The AAC source packet stream over a list of encoded frames, each given as
(payload length, pacer duration): after a frame's fragments are written,
`timestamp += io_thread_time_sync(...)` advances the 32-bit timestamp
(io.c:1040). -/
def io_thread_a2dp_source_aac_packets (payload_len_max : Nat) (seq ts : Nat) :
    List (Nat × Nat) → List rtp_header_t
  | [] => []
  | (payload_len, d) :: fs =>
    let step := aac_frame_rtp payload_len_max payload_len seq ts payload_len
    step.1 ++
      io_thread_a2dp_source_aac_packets payload_len_max step.2
        ((ts + d) % 4294967296) fs

/-! ## mSBC framing: `iothread_encode_msbc_frames` (io.c:1553-1597)

Constants from io.c:1419-1425: `SCO_H2_HDR_LEN = 2`, `MSBC_FRAME_LEN = 57`,
`SCO_H2_FRAME_LEN = 2 + 57 = 59`, `MSBC_PCM_LEN = 240`.  `struct msbc_frame`
(io.c:1447-1451) is `h2_header[2]`, `payload[57]`, and a one-byte `padding`
field, so `sizeof(struct msbc_frame) = 60` — the encoder loop checks for
`SCO_H2_FRAME_LEN` (59) bytes of free space but advances `enc_buffer_cnt` by
`sizeof(*frame)` (60). -/

def SCO_H2_HDR_LEN : Nat := 2

def MSBC_FRAME_LEN : Nat := 57

def SCO_H2_FRAME_LEN : Nat := SCO_H2_HDR_LEN + MSBC_FRAME_LEN

def MSBC_PCM_LEN : Nat := 240

def SCO_H2_HDR_0 : Nat := 0x01

def MSBC_SYNC : Nat := 0xad

/-- `sizeof(struct msbc_frame)`: 2 header bytes + 57 payload bytes + 1
padding byte. -/
def msbc_frame_sizeof : Nat := 60

/-- The `static const uint8_t h2_header_frame_number[] = {0x08, 0x38, 0xc8,
0xf8}` table.  The C code indexes it with `enc_frame_number`, which stays in
0..3; out-of-range arguments (undefined behaviour in C) map to the last
entry. -/
def h2_header_frame_number : Nat → Nat
  | 0 => 0x08
  | 1 => 0x38
  | 2 => 0xc8
  | _ => 0xf8

/-- The encoder half of `struct sbc_state` (io.c:1453-1475): the byte-addressed
encoded-output buffer (a total byte map; the C array has
`SCO_H2_FRAME_LEN * 4` = 236 bytes), the count of encoded bytes in it, its
size, the number of PCM bytes pending in `enc_pcm_buffer`, and the 2-bit H2
sequence counter.  `enc_pcm_size` is the mSBC codesize, 240 bytes. -/
structure sbc_state where
  enc_buffer : Nat → Nat
  enc_buffer_cnt : Nat
  enc_buffer_size : Nat
  enc_pcm_buffer_cnt : Nat
  enc_frame_number : Nat

/-- Writing one `struct msbc_frame` at offset `cnt` of the encoded buffer:
`sbc_encode` stores 57 payload bytes at `cnt+2`, then the two H2 header bytes
are stored at `cnt` and `cnt+1`.  The padding byte at `cnt+59` is not
written.  `payload` abstracts the bytes produced by `sbc_encode` (libsbc);
for mSBC its first byte is the 0xAD syncword. -/
def write_msbc_frame (buf : Nat → Nat) (cnt fn : Nat) (payload : Nat → Nat) :
    Nat → Nat :=
  fun j =>
    if j = cnt then SCO_H2_HDR_0
    else if j = cnt + 1 then h2_header_frame_number fn
    else if cnt + 2 ≤ j ∧ j < cnt + 2 + MSBC_FRAME_LEN then payload (j - (cnt + 2))
    else buf j

/-- The encode loop of `iothread_encode_msbc_frames`: while at least
`enc_pcm_size` (240) unconsumed PCM bytes remain and at least
`SCO_H2_FRAME_LEN` (59) bytes of the output buffer are free, encode one block
(consuming 240 PCM bytes, `len` returned by `sbc_encode`), fill in the H2
header, advance the 2-bit sequence counter mod 4, and advance
`enc_buffer_cnt` by `sizeof(*frame)` = 60.  `encPayload off` abstracts the
57-byte output of `sbc_encode` on the PCM block starting at consumed offset
`off` (external libsbc; modelled as an argument).  The `Nat` fuel bounds the
recursion; the entry point passes `enc_pcm_buffer_cnt`, which suffices since
every iteration consumes 240 > 1 PCM bytes. -/
def iothread_encode_msbc_frames_go (encPayload : Nat → Nat → Nat) :
    Nat → sbc_state → Nat → sbc_state × Nat
  | 0, st, consumed => (st, consumed)
  | fuel + 1, st, consumed =>
    if st.enc_pcm_buffer_cnt - consumed ≥ MSBC_PCM_LEN ∧
       st.enc_buffer_size - st.enc_buffer_cnt ≥ SCO_H2_FRAME_LEN then
      iothread_encode_msbc_frames_go encPayload fuel
        { st with
            enc_buffer := write_msbc_frame st.enc_buffer st.enc_buffer_cnt
              st.enc_frame_number (encPayload consumed),
            enc_frame_number := (st.enc_frame_number + 1) % 4,
            enc_buffer_cnt := st.enc_buffer_cnt + msbc_frame_sizeof }
        (consumed + MSBC_PCM_LEN)
    else (st, consumed)

/-- `iothread_encode_msbc_frames`: run the encode loop, then compact the PCM
buffer (`memmove` of the unconsumed tail, which the embedding represents by
decrementing `enc_pcm_buffer_cnt` by the consumed bytes). -/
def iothread_encode_msbc_frames (encPayload : Nat → Nat → Nat)
    (st : sbc_state) : sbc_state :=
  let r := iothread_encode_msbc_frames_go encPayload st.enc_pcm_buffer_cnt st 0
  { r.1 with enc_pcm_buffer_cnt := r.1.enc_pcm_buffer_cnt - r.2 }

/-! ## AT command parser: `at_parse` (io.c:1135-1183)

C strings become `List Char` (no NUL terminator; the embedded strings contain
no NUL).  `isspace` is the C locale default.  `strncasecmp(s, "AT", 2)`
requires the first two characters to be `A`/`a` and `T`/`t`.  `strstr` is
first-occurrence search, embedded through `takeWhile`/`dropWhile` at the
first occurrence.  `strncpy(dst, src, n)` into a zeroed fixed buffer yields
the first `n` characters of `src` (the embedding keeps the full command, as
does the C code: the copy length `equal - s - 2` is not clamped to the
16-byte field).  `at_parse` returns the C return value and the resulting
`struct at_command`; the two leading `memset`s clear `command` and `value`
before any validation, and the GET branch assigns `type` before searching for
`?`, so failing inputs still modify the output struct. -/

def c_isspace (c : Char) : Bool :=
  c = ' ' || c = '\t' || c = '\n' || c = '\x0b' || c = '\x0c' || c = '\r'

def trim_ws (l : List Char) : List Char :=
  ((l.dropWhile c_isspace).reverse.dropWhile c_isspace).reverse

def at_prefix_ok : List Char → Bool
  | a :: b :: _ => (a = 'A' || a = 'a') && (b = 'T' || b = 't')
  | _ => false

inductive at_cmd_type
  | SET
  | GET
  | TEST
deriving DecidableEq, Repr

def AT_MAX_VALUE_SIZE : Nat := 64

structure at_command where
  type : at_cmd_type
  command : List Char
  value : List Char
deriving DecidableEq, Repr

def at_parse (str : List Char) (cmd : at_command) : Int × at_command :=
  let cmd0 : at_command := { type := cmd.type, command := [], value := [] }
  let s := trim_ws str
  if at_prefix_ok s then
    let pre := s.takeWhile (fun c => c != '=')
    match s.dropWhile (fun c => c != '=') with
    | _ :: rest =>
      if rest.head? = some '?' then
        (0, { type := at_cmd_type.TEST, command := pre.drop 2, value := [] })
      else
        (0, { type := at_cmd_type.SET, command := pre.drop 2,
              value := rest.take (AT_MAX_VALUE_SIZE - 1) })
    | [] =>
      match s.dropWhile (fun c => c != '?') with
      | _ :: _ =>
        (0, { type := at_cmd_type.GET,
              command := (s.takeWhile (fun c => c != '?')).drop 2, value := [] })
      | [] => (-1, { type := at_cmd_type.GET, command := [], value := [] })
  else (-1, cmd0)

/-! ## RFCOMM worker: `io_thread_rfcomm` (io.c:1191-1417)

The event branch (io.c:1229-1249) compares the locally cached gains with the
paired SCO transport's fields and emits unsolicited responses; note that the
`+VGS` response is formatted from the local `mic_gain` variable (io.c:1244).
The `+BRSF` dispatch branch (io.c:1324-1346) parses the HF feature mask with
`strtoul(value, NULL, 10)`, enables the AG codec-negotiation bit only when
the build has mSBC and HF bit 7 (`HFP_HF_FEAT_CODEC`) is set — otherwise it
forces the CVSD codec — stores the HF features in the paired SCO transport,
replies `+BRSF: <ag_features>`, and afterwards the loop's trailing
`io_thread_write_at_response(fd, "OK")` runs.  Responses are framed by
`io_thread_write_at_response` (io.c:244-250).  The embeddings return the list
of strings written to the RFCOMM socket.  `rfcomm_handle_brsf_line` embeds
the dispatch for a `+BRSF` line; the `strcmp` branches preceding `+BRSF` in
the chain (RING, +CKPD, +VGM, +VGS, +IPHONEACCEV, +XAPL) all fail on this
command name. -/

/-- `io_thread_write_at_response`: `snprintf(buffer, ..., "\r\n%s\r\n", msg)`
followed by the RFCOMM write. -/
def io_thread_write_at_response (msg : String) : String :=
  "\r\n" ++ msg ++ "\r\n"

/-- The event branch of `io_thread_rfcomm` (io.c:1229-1249).  Inputs: the
worker's cached `mic_gain`/`spk_gain` locals and the paired SCO transport's
current gain fields.  Returns the updated locals and the responses written.
The C code formats the `+VGS` response with `sprintf(buffer, "+VGS=%d",
mic_gain)` — the microphone gain local — which the embedding reproduces. -/
def rfcomm_handle_event (mic_gain spk_gain : Nat)
    (sco_mic_gain sco_spk_gain : Nat) : Nat × Nat × List String :=
  let step1 : Nat × List String :=
    if mic_gain ≠ sco_mic_gain then
      (sco_mic_gain,
        [io_thread_write_at_response ("+VGM=" ++ Nat.repr sco_mic_gain)])
    else (mic_gain, [])
  let mic_gain := step1.1
  let step2 : Nat × List String :=
    if spk_gain ≠ sco_spk_gain then
      (sco_spk_gain,
        [io_thread_write_at_response ("+VGS=" ++ Nat.repr mic_gain)])
    else (spk_gain, [])
  (mic_gain, step2.1, step1.2 ++ step2.2)

/-- `strtoul(s, NULL, 10)` on a digit string: accumulate leading decimal
digits (the BRSF values used here are plain digit strings). -/
def strtoul10 : List Char → Nat → Nat
  | c :: rest, acc =>
    if c.isDigit then strtoul10 rest (acc * 10 + (c.toNat - 48)) else acc
  | [], acc => acc

def HFP_AG_FEAT_CODEC : Nat := 512

def HFP_HF_FEAT_CODEC : Nat := 128

def HFP_AG_FEAT_ECS : Nat := 64

def HFP_AG_FEATURES : Nat := HFP_AG_FEAT_ECS

def SCO_CODEC_CVSD : Nat := 1

def SCO_CODEC_MSBC : Nat := 2

/-- The paired SCO transport fields touched by the `+BRSF` branch. -/
structure sco_fields where
  codec : Nat
  hf_features : Nat
deriving DecidableEq, Repr

/-- The `+BRSF` branch body (io.c:1324-1346): `msbc_enabled` is the
`ENABLE_MSBC` build flag. -/
def rfcomm_handle_brsf (msbc_enabled : Bool) (sco : sco_fields)
    (value : List Char) : sco_fields × List String :=
  let hf_features := strtoul10 value 0 % 4294967296
  let step1 : Nat × sco_fields :=
    if msbc_enabled ∧ hf_features &&& HFP_HF_FEAT_CODEC ≠ 0 then
      (HFP_AG_FEATURES ||| HFP_AG_FEAT_CODEC, sco)
    else
      (HFP_AG_FEATURES, { sco with codec := SCO_CODEC_CVSD })
  let sco := { step1.2 with hf_features := hf_features }
  (sco, [io_thread_write_at_response ("+BRSF: " ++ Nat.repr step1.1)])

/-- One RFCOMM loop iteration on a received `AT+BRSF=...` line: parse it with
`at_parse` and, when the command is `+BRSF`, run the branch and append the
final `OK` acknowledgment written after the dispatch (io.c:1410). -/
def rfcomm_handle_brsf_line (msbc_enabled : Bool) (sco : sco_fields)
    (line : List Char) : sco_fields × List String :=
  let p := at_parse line { type := at_cmd_type.SET, command := [], value := [] }
  if p.1 = 0 ∧ p.2.command = "+BRSF".data then
    let r := rfcomm_handle_brsf msbc_enabled sco p.2.value
    (r.1, r.2 ++ [io_thread_write_at_response "OK"])
  else (sco, [])

/-! ## Worker initialization checks (io.c:295-315, 440-483, 635-648, 780-922)

Each embedded `..._ok` function mirrors the goto-fail chain of the
corresponding worker before its IO loop, with the externally determined
outcomes (codec init, buffer allocation, decoder/encoder setup, FIFO open)
passed as booleans.  The sink workers check `bt_fd == -1` and
`mtu_read <= 0` (a `size_t`, so the test is `== 0`) before anything else; the
source workers have no such check — `io_thread_a2dp_source_sbc` only raises a
too-small `mtu_write` to the minimum packet size with a warning
(io.c:460-464). -/

def io_thread_a2dp_sink_sbc_ok (bt_fd : Int) (mtu_read : Nat)
    (sbc_ok bufs_ok : Bool) : Bool :=
  if bt_fd = -1 then false
  else if mtu_read ≤ 0 then false
  else if !sbc_ok then false
  else if !bufs_ok then false
  else true

def io_thread_a2dp_sink_aac_ok (bt_fd : Int) (mtu_read : Nat)
    (dec_open_ok dec_params_ok bufs_ok : Bool) : Bool :=
  if bt_fd = -1 then false
  else if mtu_read ≤ 0 then false
  else if !dec_open_ok then false
  else if !dec_params_ok then false
  else if !bufs_ok then false
  else true

def io_thread_a2dp_source_sbc_ok (bt_fd : Int) (mtu_write : Nat)
    (sbc_ok bufs_ok fifo_ok : Bool) : Bool :=
  if !sbc_ok then false
  else if !bufs_ok then false
  else if !fifo_ok then false
  else true

def io_thread_a2dp_source_aac_ok (bt_fd : Int) (mtu_write : Nat)
    (enc_open_ok enc_params_ok bufs_ok fifo_ok : Bool) : Bool :=
  if !enc_open_ok then false
  else if !enc_params_ok then false
  else if !bufs_ok then false
  else if !fifo_ok then false
  else true

/-- The SBC source worker's `mtu_write` adjustment (io.c:460-464): a value
below RTP header + SBC payload header + one frame is raised to that minimum
(with a warning), and the worker continues. -/
def a2dp_source_sbc_mtu_write (mtu_write min_packet : Nat) : Nat :=
  if mtu_write < min_packet then min_packet else mtu_write

/-! ## Volume scaler: `io_thread_scale_pcm` (io.c:130-147)

The per-channel scale factors are computed in C `double` arithmetic as
`pow(10, (-64 + 64.0 * volume / 127) / 20)` (or 0 when muted); the embedding
idealizes IEEE doubles as ℝ — at the two volumes the claim singles out
(127 and muted) the C computation is exact, so the idealization is faithful
there. -/

/-- The channel scale from `io_thread_scale_pcm`: 0 when muted, otherwise
`pow(10, (-64 + 64.0 * volume / 127) / 20)`. -/
noncomputable def ch_scale (muted : Bool) (volume : Nat) : ℝ :=
  if muted then 0
  else (10 : ℝ) ^ ((((-64 : ℝ) + 64 * (volume : ℝ) / 127)) / 20)

/-- Modelled from the spec: the sample transform of `snd_pcm_scale_s16le`
(shared ALSA helper, not under src/) — multiply the 16-bit sample by the
scale and clamp to the 16-bit range.  The spec does not fix the rounding of
the product; the embedding floors, which is exact at the scales 0 and 1 the
claim is about. -/
noncomputable def scale_sample (scale : ℝ) (s : Int) : Int :=
  max (-32768) (min 32767 ⌊scale * (s : ℝ)⌋)

/-- Modelled from the spec: `snd_pcm_scale_s16le` (not under src/) applies
`ch1_scale` to channel-1 samples and `ch2_scale` to channel-2 samples of the
interleaved 16-bit buffer; mono uses only channel 1, stereo interleaves
starting with channel 1 (even 0-based indices).  `i0` is the index of the
first sample. -/
noncomputable def snd_pcm_scale_s16le (ch1_scale ch2_scale : ℝ)
    (channels : Nat) : Nat → List Int → List Int
  | _, [] => []
  | i, x :: xs =>
    scale_sample (if channels = 1 ∨ i % 2 = 0 then ch1_scale else ch2_scale) x ::
      snd_pcm_scale_s16le ch1_scale ch2_scale channels (i + 1) xs

/-- `io_thread_scale_pcm`: snapshot the two channel volumes/mute flags,
compute the scales, and scale the buffer. -/
noncomputable def io_thread_scale_pcm (ch1_muted ch2_muted : Bool)
    (ch1_volume ch2_volume : Nat) (buffer : List Int) (channels : Nat) :
    List Int :=
  snd_pcm_scale_s16le (ch_scale ch1_muted ch1_volume)
    (ch_scale ch2_muted ch2_volume) channels 0 buffer

/-- Helper: all-whitespace character lists. -/
def all_space (l : List Char) : Prop := ∀ c ∈ l, c_isspace c = true

/-- Helper: the last character, when present, is not whitespace. -/
def no_trailing_space (l : List Char) : Prop :=
  ∀ c, l.getLast? = some c → c_isspace c = false

end BlueAlsa

namespace BlueAlsa

/-! ### Theorems -/

theorem dropWhile_append_all {p : Char → Bool} {l1 : List Char} (l2 : List Char)
    (h : ∀ x ∈ l1, p x = true) :
    (l1 ++ l2).dropWhile p = l2.dropWhile p := by
  induction l1 with
  | nil => rfl
  | cons a l1 ih =>
    rw [List.cons_append, List.dropWhile_cons, if_pos (h a (by simp))]
    exact ih (fun x hx => h x (by simp [hx]))

theorem dropWhile_eq_nil_all {p : Char → Bool} {l : List Char}
    (h : ∀ x ∈ l, p x = true) : l.dropWhile p = [] := by
  have := @dropWhile_append_all p l [] h
  simpa using this

theorem dropWhile_eq_self_head {p : Char → Bool} {l : List Char}
    (h : ∀ c, l.head? = some c → p c = false) : l.dropWhile p = l := by
  match l with
  | [] => rfl
  | a :: l =>
    rw [List.dropWhile_cons, if_neg (by rw [h a rfl]; simp)]

theorem takeWhile_append_sentinel {p : Char → Bool} {l1 : List Char} {c : Char}
    (t : List Char) (h : ∀ x ∈ l1, p x = true) (hc : p c = false) :
    (l1 ++ c :: t).takeWhile p = l1 := by
  induction l1 with
  | nil => simp [List.takeWhile_cons, hc]
  | cons a l1 ih =>
    rw [List.cons_append, List.takeWhile_cons, if_pos (h a (by simp))]
    rw [ih (fun x hx => h x (by simp [hx]))]

theorem dropWhile_append_sentinel {p : Char → Bool} {l1 : List Char} {c : Char}
    (t : List Char) (h : ∀ x ∈ l1, p x = true) (hc : p c = false) :
    (l1 ++ c :: t).dropWhile p = c :: t := by
  rw [dropWhile_append_all _ h, List.dropWhile_cons, if_neg (by rw [hc]; simp)]

/-- Helper: trimming whitespace around a token whose first and last characters
are not whitespace returns exactly the token. -/
theorem trim_ws_eq {ws1 ws2 core : List Char}
    (h1 : all_space ws1) (h2 : all_space ws2)
    (hh : ∀ c, core.head? = some c → c_isspace c = false)
    (hl : no_trailing_space core) :
    trim_ws (ws1 ++ core ++ ws2) = core := by
  unfold trim_ws
  rw [List.append_assoc, dropWhile_append_all _ h1]
  match core with
  | [] =>
    rw [List.nil_append, dropWhile_eq_nil_all h2]
    rfl
  | a :: core =>
    rw [@dropWhile_eq_self_head c_isspace (a :: core ++ ws2) ?hd]
    case hd =>
      intro c hc
      rw [List.cons_append] at hc
      exact hh c (by simpa using hc)
    show (List.dropWhile c_isspace ((a :: core) ++ ws2).reverse).reverse = a :: core
    rw [List.reverse_append, dropWhile_append_all _ ?ws2r]
    case ws2r =>
      intro x hx
      exact h2 x (by simpa using hx)
    rw [dropWhile_eq_self_head ?lastok]
    case lastok =>
      intro c hc
      rw [List.head?_reverse] at hc
      exact hl c hc
    rw [List.reverse_reverse]

/-- Helper: successful parse of the SET form `AT<CMD>=<v>` (whitespace around,
case-insensitive AT). -/
theorem at_parse_set (ws1 ws2 cs vs : List Char) (a t : Char) (cmd : at_command)
    (h1 : all_space ws1) (h2 : all_space ws2)
    (ha : a = 'A' ∨ a = 'a') (ht : t = 'T' ∨ t = 't')
    (hcs : '=' ∉ cs) (hv1 : ¬ vs.head? = some '?')
    (hv2 : no_trailing_space vs) :
    at_parse (ws1 ++ (a :: t :: (cs ++ '=' :: vs)) ++ ws2) cmd =
      (0, { type := at_cmd_type.SET, command := cs, value := vs.take 63 }) := by
  have hpa : (a != '=') = true := by rcases ha with rfl | rfl <;> rfl
  have hpt : (t != '=') = true := by rcases ht with rfl | rfl <;> rfl
  have hallcs : ∀ x ∈ cs, (x != '=') = true := by
    intro x hx
    simp only [bne_iff_ne, ne_eq]
    rintro rfl
    exact hcs hx
  have hh : ∀ c, (a :: t :: (cs ++ '=' :: vs)).head? = some c → c_isspace c = false := by
    intro c hc
    rw [List.head?_cons, Option.some_inj] at hc
    subst hc
    rcases ha with rfl | rfl <;> rfl
  have hl : no_trailing_space (a :: t :: (cs ++ '=' :: vs)) := by
    intro c hc
    rw [show a :: t :: (cs ++ '=' :: vs) = (a :: t :: cs) ++ '=' :: vs from rfl,
      List.getLast?_append_cons] at hc
    match vs, hc with
    | [], hc =>
      rw [Option.some_inj.mp hc.symm]  
      rfl
    | v :: vs, hc =>
      rw [show ('=' :: v :: vs).getLast? = (v :: vs).getLast? from List.getLast?_cons_cons] at hc
      exact hv2 c hc
  have hpref : at_prefix_ok (a :: t :: (cs ++ '=' :: vs)) = true := by
    rcases ha with rfl | rfl <;> rcases ht with rfl | rfl <;> rfl
  simp only [at_parse]
  rw [trim_ws_eq h1 h2 hh hl, if_pos hpref]
  rw [List.dropWhile_cons, if_pos hpa, List.dropWhile_cons, if_pos hpt,
    dropWhile_append_sentinel vs hallcs (by rfl)]
  rw [List.takeWhile_cons, if_pos hpa, List.takeWhile_cons, if_pos hpt,
    takeWhile_append_sentinel vs hallcs (by rfl)]
  dsimp only
  rw [if_neg hv1]
  rfl

/-- Helper: successful parse of the TEST form `AT<CMD>=?`. -/
theorem at_parse_test (ws1 ws2 cs : List Char) (a t : Char) (cmd : at_command)
    (h1 : all_space ws1) (h2 : all_space ws2)
    (ha : a = 'A' ∨ a = 'a') (ht : t = 'T' ∨ t = 't')
    (hcs : '=' ∉ cs) :
    at_parse (ws1 ++ (a :: t :: (cs ++ ['=', '?'])) ++ ws2) cmd =
      (0, { type := at_cmd_type.TEST, command := cs, value := [] }) := by
  have hpa : (a != '=') = true := by rcases ha with rfl | rfl <;> rfl
  have hpt : (t != '=') = true := by rcases ht with rfl | rfl <;> rfl
  have hallcs : ∀ x ∈ cs, (x != '=') = true := by
    intro x hx
    simp only [bne_iff_ne, ne_eq]
    rintro rfl
    exact hcs hx
  have hh : ∀ c, (a :: t :: (cs ++ ['=', '?'])).head? = some c → c_isspace c = false := by
    intro c hc
    rw [List.head?_cons, Option.some_inj] at hc
    subst hc
    rcases ha with rfl | rfl <;> rfl
  have hl : no_trailing_space (a :: t :: (cs ++ ['=', '?'])) := by
    intro c hc
    rw [show a :: t :: (cs ++ ['=', '?']) = (a :: t :: cs) ++ '=' :: ['?'] from rfl,
      List.getLast?_append_cons] at hc
    rw [Option.some_inj.mp hc.symm]
    rfl
  have hpref : at_prefix_ok (a :: t :: (cs ++ ['=', '?'])) = true := by
    rcases ha with rfl | rfl <;> rcases ht with rfl | rfl <;> rfl
  simp only [at_parse]
  rw [trim_ws_eq h1 h2 hh hl, if_pos hpref]
  rw [List.dropWhile_cons, if_pos hpa, List.dropWhile_cons, if_pos hpt,
    dropWhile_append_sentinel ['?'] hallcs (by rfl)]
  rw [List.takeWhile_cons, if_pos hpa, List.takeWhile_cons, if_pos hpt,
    takeWhile_append_sentinel ['?'] hallcs (by rfl)]
  rfl

/-- Helper: successful parse of the GET form `AT<CMD>?`. -/
theorem at_parse_get (ws1 ws2 cs : List Char) (a t : Char) (cmd : at_command)
    (h1 : all_space ws1) (h2 : all_space ws2)
    (ha : a = 'A' ∨ a = 'a') (ht : t = 'T' ∨ t = 't')
    (hcs : '=' ∉ cs) (hcq : '?' ∉ cs) :
    at_parse (ws1 ++ (a :: t :: (cs ++ ['?'])) ++ ws2) cmd =
      (0, { type := at_cmd_type.GET, command := cs, value := [] }) := by
  have hpa : (a != '?') = true := by rcases ha with rfl | rfl <;> rfl
  have hpt : (t != '?') = true := by rcases ht with rfl | rfl <;> rfl
  have hallcs : ∀ x ∈ cs, (x != '?') = true := by
    intro x hx
    simp only [bne_iff_ne, ne_eq]
    rintro rfl
    exact hcq hx
  have halleq : ∀ x ∈ a :: t :: (cs ++ ['?']), (x != '=') = true := by
    intro x hx
    simp only [List.mem_cons, List.mem_append] at hx
    rcases hx with rfl | rfl | hx | hx
    · rcases ha with rfl | rfl <;> rfl
    · rcases ht with rfl | rfl <;> rfl
    · simp only [bne_iff_ne, ne_eq]
      rintro rfl
      exact hcs hx
    · rcases hx with rfl | hx
      · rfl
      · cases hx
  have hh : ∀ c, (a :: t :: (cs ++ ['?'])).head? = some c → c_isspace c = false := by
    intro c hc
    rw [List.head?_cons, Option.some_inj] at hc
    subst hc
    rcases ha with rfl | rfl <;> rfl
  have hl : no_trailing_space (a :: t :: (cs ++ ['?'])) := by
    intro c hc
    rw [show a :: t :: (cs ++ ['?']) = (a :: t :: cs) ++ '?' :: [] from rfl,
      List.getLast?_append_cons] at hc
    rw [Option.some_inj.mp hc.symm]
    rfl
  have hpref : at_prefix_ok (a :: t :: (cs ++ ['?'])) = true := by
    rcases ha with rfl | rfl <;> rcases ht with rfl | rfl <;> rfl
  simp only [at_parse]
  rw [trim_ws_eq h1 h2 hh hl, if_pos hpref]
  rw [dropWhile_eq_nil_all halleq]
  dsimp only
  rw [List.dropWhile_cons, if_pos hpa, List.dropWhile_cons, if_pos hpt,
    dropWhile_append_sentinel [] hallcs (by rfl)]
  rw [List.takeWhile_cons, if_pos hpa, List.takeWhile_cons, if_pos hpt,
    takeWhile_append_sentinel [] hallcs (by rfl)]
  rfl

/-- Helper: inputs whose trimmed form does not start with `AT` (case
insensitively) are rejected; the parser has already cleared the command and
value fields, and leaves the type field untouched. -/
theorem at_parse_no_at (str : List Char) (cmd : at_command)
    (h : at_prefix_ok (trim_ws str) = false) :
    at_parse str cmd = (-1, { type := cmd.type, command := [], value := [] }) := by
  simp only [at_parse]
  rw [if_neg (by simp [h])]

/-- Helper: inputs with the `AT` prefix but containing neither `=` nor `?`
are rejected; the command and value fields are cleared and the type field is
left as `GET` (assigned before the `?` search fails). -/
theorem at_parse_no_sep (str : List Char) (cmd : at_command)
    (hpref : at_prefix_ok (trim_ws str) = true)
    (heq : '=' ∉ trim_ws str) (hq : '?' ∉ trim_ws str) :
    at_parse str cmd = (-1, { type := at_cmd_type.GET, command := [], value := [] }) := by
  have halleq : ∀ x ∈ trim_ws str, (x != '=') = true := by
    intro x hx
    simp only [bne_iff_ne, ne_eq]
    rintro rfl
    exact heq hx
  have hallq : ∀ x ∈ trim_ws str, (x != '?') = true := by
    intro x hx
    simp only [bne_iff_ne, ne_eq]
    rintro rfl
    exact hq hx
  simp only [at_parse]
  rw [if_pos hpref, dropWhile_eq_nil_all halleq]
  dsimp only
  rw [dropWhile_eq_nil_all hallq]

/-- C4 (amended): `at_parse` accepts exactly the forms `AT<CMD>=<v>` (SET,
value truncated to 63 bytes), `AT<CMD>=?` (TEST) and `AT<CMD>?` (GET), with
the `AT` prefix case-insensitive and surrounding whitespace ignored, and
recovers CMD, the type, and the value; a bare `AT<CMD>` (no `=` and no `?`)
is rejected, and rejected inputs do not leave the output struct unmodified:
the command and value fields are always cleared, and when the `AT` prefix was
present the type field is set to GET. -/
theorem c4_at_parse :
    (∀ (ws1 ws2 cs vs : List Char) (a t : Char) (cmd : at_command),
      all_space ws1 → all_space ws2 →
      (a = 'A' ∨ a = 'a') → (t = 'T' ∨ t = 't') →
      '=' ∉ cs → ¬ vs.head? = some '?' → no_trailing_space vs →
      at_parse (ws1 ++ (a :: t :: (cs ++ '=' :: vs)) ++ ws2) cmd =
        (0, { type := at_cmd_type.SET, command := cs, value := vs.take 63 })) ∧
    (∀ (ws1 ws2 cs : List Char) (a t : Char) (cmd : at_command),
      all_space ws1 → all_space ws2 →
      (a = 'A' ∨ a = 'a') → (t = 'T' ∨ t = 't') → '=' ∉ cs →
      at_parse (ws1 ++ (a :: t :: (cs ++ ['=', '?'])) ++ ws2) cmd =
        (0, { type := at_cmd_type.TEST, command := cs, value := [] })) ∧
    (∀ (ws1 ws2 cs : List Char) (a t : Char) (cmd : at_command),
      all_space ws1 → all_space ws2 →
      (a = 'A' ∨ a = 'a') → (t = 'T' ∨ t = 't') → '=' ∉ cs → '?' ∉ cs →
      at_parse (ws1 ++ (a :: t :: (cs ++ ['?'])) ++ ws2) cmd =
        (0, { type := at_cmd_type.GET, command := cs, value := [] })) ∧
    (∀ (str : List Char) (cmd : at_command),
      at_prefix_ok (trim_ws str) = false →
      at_parse str cmd = (-1, { type := cmd.type, command := [], value := [] })) ∧
    (∀ (str : List Char) (cmd : at_command),
      at_prefix_ok (trim_ws str) = true →
      '=' ∉ trim_ws str → '?' ∉ trim_ws str →
      at_parse str cmd =
        (-1, { type := at_cmd_type.GET, command := [], value := [] })) := by
  exact ⟨at_parse_set, at_parse_test, at_parse_get, at_parse_no_at, at_parse_no_sep⟩

/-- C4 counterexample: the input `ATX` has the claimed success form
`AT<CMD>` with CMD = `X`, yet `at_parse` returns −1; moreover the output
struct, initialized to (SET, "B", "C"), is modified to (GET, "", "") by the
failing call. -/
theorem c4_counterexample :
    at_parse ('A' :: 'T' :: ['X']) ⟨at_cmd_type.SET, ['B'], ['C']⟩ =
      (-1, { type := at_cmd_type.GET, command := [], value := [] }) ∧
    ¬ ((at_parse ('A' :: 'T' :: ['X']) ⟨at_cmd_type.SET, ['B'], ['C']⟩).1 = 0) ∧
    ¬ ((at_parse ('A' :: 'T' :: ['X']) ⟨at_cmd_type.SET, ['B'], ['C']⟩).2 =
        ⟨at_cmd_type.SET, ['B'], ['C']⟩) := by
  refine ⟨by decide, by decide, by decide⟩

theorem c4_at_parse_witness :
    at_parse ([] ++ ('A' :: 'T' :: (['+', 'B', 'R', 'S', 'F'] ++ '=' :: ['7', '6', '8'])) ++ ['\r'])
        ⟨at_cmd_type.GET, [], []⟩ =
      (0, { type := at_cmd_type.SET, command := ['+', 'B', 'R', 'S', 'F'],
            value := ['7', '6', '8'] }) := by
  have h := c4_at_parse.1 [] ['\r'] ['+', 'B', 'R', 'S', 'F'] ['7', '6', '8'] 'A' 'T'
      ⟨at_cmd_type.GET, [], []⟩
      (by unfold all_space; decide) (by unfold all_space; decide)
      (Or.inl rfl) (Or.inl rfl) (by decide) (by decide)
      (by
        intro c hc
        rw [show (['7', '6', '8'] : List Char).getLast? = some '8' from rfl] at hc
        cases hc
        rfl)
  exact h.trans (by decide)

/-- C10: calling the rate pacer with a frame count of 0 returns 0 immediately,
performs no sleep, and leaves the pacing state (ts0, frames, sampling)
entirely unchanged. -/
theorem c10_time_sync_zero_frames (io : io_sync) (now_ns : Nat) :
    io_thread_time_sync io now_ns 0 = (io, false, 0) := by
  rfl

/-- C6: for a nonzero frame count the rate pacer adds the frame count to
`io_sync.frames` (as a 32-bit counter), sleeps exactly when the target audio
time — the cumulative frame counter less `sampling / 100` frames, converted to
nanoseconds against `ts0` — exceeds the elapsed monotonic time, and returns
`1000000 * (frames / sampling) + 1000000 / sampling * (frames % sampling)`
microseconds (integer arithmetic). -/
theorem c6_time_sync_nonzero (io : io_sync) (now_ns frames : Nat)
    (h : frames ≠ 0)
    (hd : 1000000 * (frames / io.sampling) +
          1000000 / io.sampling * (frames % io.sampling) < 4294967296) :
    io_thread_time_sync io now_ns frames =
      ({ io with frames := (io.frames + frames) % 4294967296 },
       decide (io_sync_audio_ns io.sampling
          (if (io.frames + frames) % 4294967296 > io.sampling / 100 then
             (io.frames + frames) % 4294967296 - io.sampling / 100 else 0) >
          now_ns - io.ts0),
       1000000 * (frames / io.sampling) +
         1000000 / io.sampling * (frames % io.sampling)) := by
  unfold io_thread_time_sync
  rw [if_neg h]
  have : io_sync_duration io.sampling frames =
      1000000 * (frames / io.sampling) +
        1000000 / io.sampling * (frames % io.sampling) := by
    unfold io_sync_duration
    exact Nat.mod_eq_of_lt hd
  simp only [this]

/-- Helper: indexing a list at 0 is taking its head. -/
theorem list_getElem_zero_head {α : Type} (l : List α) : l[0]? = l.head? := by
  cases l <;> simp

/-- Helper: full characterization of the lengths, sequence numbers and mark
bits of the packets produced by the AAC fragmentation loop. -/
theorem aac_frag_go_spec (pmax hdr : Nat) :
    ∀ (fuel : Nat) (buf : Nat → Nat) (seq plen i : Nat), 0 < pmax → 0 < plen →
      plen ≤ fuel →
      ((aac_frag_go pmax hdr fuel buf seq plen).map
          (fun p => (p.1.length, p.2.1, p.2.2)))[i]? =
        (if pmax * i < plen then
          some (min (plen - pmax * i) pmax, (seq + i + 1) % 65536,
                decide (plen - pmax * i < pmax))
         else none) := by
  intro fuel
  induction fuel with
  | zero => intro buf seq plen i hmax h0 hf; omega
  | succ fuel ih =>
    intro buf seq plen i hmax h0 hf
    rw [aac_frag_go]
    by_cases hr : plen - min plen pmax = 0
    · have hmin : min plen pmax = plen := by omega
      rw [if_pos hr]
      match i with
      | 0 =>
        have h1 : pmax * 0 < plen := by omega
        simp only [List.map_cons, List.map_nil, List.getElem?_cons_zero,
          List.length_map, List.length_range, if_pos h1, hmin, Nat.mul_zero,
          Nat.sub_zero, Nat.add_zero]
        rw [if_pos h0]
      | i + 1 =>
        have h1 : ¬ pmax * (i + 1) < plen := by
          have := Nat.le_mul_of_pos_right pmax (show 0 < i + 1 by omega)
          omega
        simp only [List.map_cons, List.map_nil, List.getElem?_cons_succ,
          List.getElem?_nil, if_neg h1]
    · have hmin : min plen pmax = pmax := by omega
      rw [if_neg hr]
      match i with
      | 0 =>
        have h1 : pmax * 0 < plen := by omega
        simp only [List.map_cons, List.getElem?_cons_zero, List.length_map,
          List.length_range, if_pos h1, hmin, Nat.mul_zero, Nat.sub_zero,
          Nat.add_zero]
        rw [if_pos h0, decide_eq_false (show ¬ plen < pmax by omega),
          decide_eq_false (show ¬ pmax < pmax by omega)]
      | i + 1 =>
        rw [List.map_cons, List.getElem?_cons_succ,
          ih _ _ _ i hmax (by omega) (by omega)]
        have e1 : pmax * (i + 1) = pmax * i + pmax := Nat.mul_succ pmax i
        have hiff : (pmax * i < plen - min plen pmax) ↔ (pmax * (i + 1) < plen) := by
          rw [e1, hmin]; omega
        by_cases hc : pmax * i < plen - min plen pmax
        · rw [if_pos hc, if_pos (hiff.mp hc)]
          have e2 : plen - min plen pmax - pmax * i = plen - pmax * (i + 1) := by
            rw [e1, hmin]; omega
          have e3 : ((seq + 1) % 65536 + i + 1) % 65536 = (seq + (i + 1) + 1) % 65536 := by
            rw [Nat.add_assoc, Nat.mod_add_mod]
            congr 1
            omega
          rw [e2, e3]
        · rw [if_neg hc, if_neg (fun h => hc (hiff.mpr h))]

/-- Helper: the first packet of the fragmentation loop carries the first
`min plen pmax` bytes of the payload buffer. -/
theorem aac_frag_go_head (pmax hdr fuel : Nat) (buf : Nat → Nat) (seq plen : Nat)
    (hf : 0 < fuel) :
    (aac_frag_go pmax hdr fuel buf seq plen).head? =
      some ((List.range (min plen pmax)).map buf, (seq + 1) % 65536,
            decide (min plen pmax < pmax)) := by
  match fuel, hf with
  | fuel + 1, _ =>
    rw [aac_frag_go]
    by_cases hr : plen - min plen pmax = 0
    · simp [hr]
    · simp [hr]

/-- C1 counterexample: with MTU 20, RTP header length 12 (so a maximum
payload of 8 bytes per packet), an identity byte buffer and a 20-byte
audioMuxElement, the code emits three fragments with MARK bits
false, false, true — MARK is set on the *last* fragment, not on all but the
last as the claim states — and the second fragment's bytes start at buffer
offset 20 (= 8 + rtp_header_len), not at offset 8, because the compaction
memmove source is offset by the RTP header length. -/
theorem c1_counterexample :
    (aac_fragment 20 12 (fun i => i) 100 20).map
        (fun p => (p.1.length, p.2.1, p.2.2)) =
      [(8, 101, false), (8, 102, false), (4, 103, true)] ∧
    ¬ ((aac_fragment 20 12 (fun i => i) 100 20).map (fun p => p.2.2) =
        [true, true, false]) ∧
    (aac_fragment 20 12 (fun i => i) 100 20).map (fun p => p.1.head?) =
      [some 0, some 20, some 20] ∧
    ¬ ((aac_fragment 20 12 (fun i => i) 100 20).map (fun p => p.1.head?) =
        [some 0, some 8, some 16]) := by
  refine ⟨by decide, by decide, by decide, by decide⟩

/-- C1 (amended): when the encoded audioMuxElement exceeds
`MTU − rtp_header_len`, the payload is sent as successive RTP packets of at
most that size with the sequence number incremented by one per packet
(mod 2^16); the RTP MARK bit is set exactly on a fragment strictly shorter
than the maximum — i.e. only on the final fragment, and not at all when the
payload length is an exact multiple of the maximum.  The first packet carries
the head of the payload, but packets after the first carry bytes displaced by
a further `rtp_header_len` (the compaction memmove reads from
`out_payload + rtp_header_len + len`). -/
theorem c1_aac_fragmentation (mtu hdr : Nat) (buf : Nat → Nat) (seq plen : Nat)
    (hmax : 0 < mtu - hdr) (h0 : 0 < plen) :
    (∀ i, ((aac_fragment mtu hdr buf seq plen).map
        (fun p => (p.1.length, p.2.1, p.2.2)))[i]? =
      (if (mtu - hdr) * i < plen then
        some (min (plen - (mtu - hdr) * i) (mtu - hdr), (seq + i + 1) % 65536,
              decide (plen - (mtu - hdr) * i < mtu - hdr))
       else none)) ∧
    (aac_fragment mtu hdr buf seq plen).head? =
      some ((List.range (min plen (mtu - hdr))).map buf, (seq + 1) % 65536,
            decide (min plen (mtu - hdr) < mtu - hdr)) ∧
    (mtu - hdr < plen →
      ((aac_fragment mtu hdr buf seq plen)[1]?).map (fun p => p.1) =
        some ((List.range (min (plen - (mtu - hdr)) (mtu - hdr))).map
          (fun j => buf (j + (hdr + (mtu - hdr)))))) := by
  refine ⟨fun i => aac_frag_go_spec (mtu - hdr) hdr plen buf seq plen i hmax h0 le_rfl,
    aac_frag_go_head (mtu - hdr) hdr plen buf seq plen (by omega), fun hlt => ?_⟩
  obtain ⟨n, rfl⟩ : ∃ n, plen = n + 1 := ⟨plen - 1, by omega⟩
  unfold aac_fragment
  rw [aac_frag_go]
  have hmin : min (n + 1) (mtu - hdr) = mtu - hdr := by omega
  have hr : ¬ (n + 1) - min (n + 1) (mtu - hdr) = 0 := by omega
  simp only [hmin] at hr ⊢
  rw [if_neg hr]
  rw [List.getElem?_cons_succ, list_getElem_zero_head]
  rw [aac_frag_go_head _ _ _ _ _ _ (by omega)]
  simp only [Option.map_some']
  congr 1
  apply List.map_congr_left
  intro j hj
  rw [List.mem_range] at hj
  have hjr : j < (n + 1) - (mtu - hdr) := by
    have := Nat.min_le_left ((n + 1) - (mtu - hdr)) (mtu - hdr)
    omega
  simp [hjr]

theorem c1_aac_fragmentation_witness :
    ((aac_fragment 20 12 (fun i => i) 100 20).map
        (fun p => (p.1.length, p.2.1, p.2.2)))[1]? = some (8, 102, false) := by
  exact ((c1_aac_fragmentation 20 12 (fun i => i) 100 20 (by decide) (by decide)).1 1).trans
    (by decide)

/-- Helper: the SBC source stream emits one RTP packet per pacer call. -/
theorem sbc_packets_length (ds : List Nat) :
    ∀ (seq ts : Nat),
      (io_thread_a2dp_source_sbc_packets seq ts ds).length = ds.length := by
  induction ds with
  | nil => intro seq ts; rfl
  | cons d ds ih =>
    intro seq ts
    simp [io_thread_a2dp_source_sbc_packets, ih]

/-- Helper: pointwise characterization of the SBC source packet stream. -/
theorem sbc_packets_get (ds : List Nat) :
    ∀ (seq ts i : Nat), ts < 4294967296 → i < ds.length →
      (io_thread_a2dp_source_sbc_packets seq ts ds)[i]? =
        some { version := 2, paytype := 96,
               seq_number := (seq + i + 1) % 65536,
               timestamp := (ts + (ds.take i).sum) % 4294967296 } := by
  induction ds with
  | nil => intro seq ts i hts hi; simp at hi
  | cons d ds ih =>
    intro seq ts i hts hi
    rw [io_thread_a2dp_source_sbc_packets]
    match i with
    | 0 =>
      rw [List.getElem?_cons_zero]
      simp [Nat.mod_eq_of_lt hts]
    | i + 1 =>
      rw [List.getElem?_cons_succ,
        ih _ _ i (Nat.mod_lt _ (by norm_num)) (by simpa using hi)]
      have e3 : ((seq + 1) % 65536 + i + 1) % 65536 = (seq + (i + 1) + 1) % 65536 := by
        rw [Nat.add_assoc, Nat.mod_add_mod]
        congr 1
        omega
      have e5 : ((ts + d) % 4294967296 + (ds.take i).sum) % 4294967296 =
          (ts + ((d :: ds).take (i + 1)).sum) % 4294967296 := by
        rw [Nat.mod_add_mod, List.take_succ_cons, List.sum_cons]
        congr 1
        omega
      rw [e3, e5]

/-- Helper: every RTP header emitted while fragmenting one AAC frame carries
version 2, payload type 96, and the timestamp stamped before the
fragmentation loop. -/
theorem aac_frame_rtp_fields (pmax : Nat) :
    ∀ (fuel seq ts plen : Nat) (p : rtp_header_t),
      p ∈ (aac_frame_rtp pmax fuel seq ts plen).1 →
      p.version = 2 ∧ p.paytype = 96 ∧ p.timestamp = ts := by
  intro fuel
  induction fuel with
  | zero => intro seq ts plen p hp; simp [aac_frame_rtp] at hp
  | succ fuel ih =>
    intro seq ts plen p hp
    simp only [aac_frame_rtp, apply_ite Prod.fst] at hp
    by_cases hr : plen - min plen pmax = 0
    · rw [if_pos hr] at hp
      simp only [List.mem_singleton] at hp
      subst hp
      exact ⟨rfl, rfl, rfl⟩
    · rw [if_neg hr] at hp
      simp only [List.mem_cons] at hp
      rcases hp with hp | hp
      · subst hp; exact ⟨rfl, rfl, rfl⟩
      · exact ih _ _ _ p hp

/-- Helper: within one fragmented AAC frame the sequence numbers of the
emitted packets are consecutive (mod 2^16). -/
theorem aac_frame_rtp_seq (pmax : Nat) :
    ∀ (fuel : Nat) (seq ts plen i : Nat), 0 < pmax → 0 < plen → plen ≤ fuel →
      ((aac_frame_rtp pmax fuel seq ts plen).1.map rtp_header_t.seq_number)[i]? =
        (if pmax * i < plen then some ((seq + i + 1) % 65536) else none) := by
  intro fuel
  induction fuel with
  | zero => intro seq ts plen i hmax h0 hf; omega
  | succ fuel ih =>
    intro seq ts plen i hmax h0 hf
    simp only [aac_frame_rtp, apply_ite Prod.fst]
    by_cases hr : plen - min plen pmax = 0
    · rw [if_pos hr]
      match i with
      | 0 =>
        have h1 : pmax * 0 < plen := by omega
        simp only [List.map_cons, List.map_nil, List.getElem?_cons_zero,
          if_pos h1, Nat.add_zero]
      | i + 1 =>
        have h1 : ¬ pmax * (i + 1) < plen := by
          have := Nat.le_mul_of_pos_right pmax (show 0 < i + 1 by omega)
          omega
        simp only [List.map_cons, List.map_nil, List.getElem?_cons_succ,
          List.getElem?_nil, if_neg h1]
    · have hmin : min plen pmax = pmax := by omega
      rw [if_neg hr]
      match i with
      | 0 =>
        have h1 : pmax * 0 < plen := by omega
        simp only [List.map_cons, List.getElem?_cons_zero, if_pos h1,
          Nat.add_zero]
      | i + 1 =>
        rw [List.map_cons, List.getElem?_cons_succ,
          ih _ _ _ i hmax (by omega) (by omega)]
        have e1 : pmax * (i + 1) = pmax * i + pmax := Nat.mul_succ pmax i
        have hiff : (pmax * i < plen - min plen pmax) ↔ (pmax * (i + 1) < plen) := by
          rw [e1, hmin]; omega
        by_cases hc : pmax * i < plen - min plen pmax
        · rw [if_pos hc, if_pos (hiff.mp hc)]
          have e3 : ((seq + 1) % 65536 + i + 1) % 65536 = (seq + (i + 1) + 1) % 65536 := by
            rw [Nat.add_assoc, Nat.mod_add_mod]
            congr 1
            omega
          rw [e3]
        · rw [if_neg hc, if_neg (fun h => hc (hiff.mpr h))]

/-- Helper: every packet of the AAC source stream carries version 2 and
payload type 96. -/
theorem aac_packets_fields (pmax : Nat) :
    ∀ (fs : List (Nat × Nat)) (seq ts : Nat) (p : rtp_header_t),
      p ∈ io_thread_a2dp_source_aac_packets pmax seq ts fs →
      p.version = 2 ∧ p.paytype = 96 := by
  intro fs
  induction fs with
  | nil => intro seq ts p hp; simp [io_thread_a2dp_source_aac_packets] at hp
  | cons f fs ih =>
    intro seq ts p hp
    rw [io_thread_a2dp_source_aac_packets] at hp
    rcases List.mem_append.mp hp with hp | hp
    · exact ⟨(aac_frame_rtp_fields pmax _ _ _ _ p hp).1,
        (aac_frame_rtp_fields pmax _ _ _ _ p hp).2.1⟩
    · exact ih _ _ p hp

/-- C7: every RTP packet emitted by an A2DP source worker has version 2 and
payload type 96.  For the SBC source, the stream over a list of pacer
durations has one packet per transmitted packet whose sequence number is the
initial value plus the packet index plus one (mod 2^16) and whose timestamp
is the initial value plus the sum of the durations of all previously emitted
packets (mod 2^32).  For the AAC source, the packets of one fragmented frame
carry version 2, payload type 96, consecutive sequence numbers, and all share
the timestamp accumulated before the frame (the pacer is called once per
encoded frame). -/
theorem c7_rtp_stream_invariants :
    (∀ (ds : List Nat) (seq ts : Nat),
      (io_thread_a2dp_source_sbc_packets seq ts ds).length = ds.length) ∧
    (∀ (ds : List Nat) (seq ts i : Nat), ts < 4294967296 → i < ds.length →
      (io_thread_a2dp_source_sbc_packets seq ts ds)[i]? =
        some { version := 2, paytype := 96,
               seq_number := (seq + i + 1) % 65536,
               timestamp := (ts + (ds.take i).sum) % 4294967296 }) ∧
    (∀ (pmax : Nat) (fs : List (Nat × Nat)) (seq ts : Nat) (p : rtp_header_t),
      p ∈ io_thread_a2dp_source_aac_packets pmax seq ts fs →
      p.version = 2 ∧ p.paytype = 96) ∧
    (∀ (pmax fuel seq ts plen : Nat) (p : rtp_header_t),
      p ∈ (aac_frame_rtp pmax fuel seq ts plen).1 → p.timestamp = ts) ∧
    (∀ (pmax fuel seq ts plen i : Nat), 0 < pmax → 0 < plen → plen ≤ fuel →
      ((aac_frame_rtp pmax fuel seq ts plen).1.map rtp_header_t.seq_number)[i]? =
        (if pmax * i < plen then some ((seq + i + 1) % 65536) else none)) := by
  exact ⟨fun ds seq ts => sbc_packets_length ds seq ts,
    fun ds seq ts i hts hi => sbc_packets_get ds seq ts i hts hi,
    fun pmax fs seq ts p hp => aac_packets_fields pmax fs seq ts p hp,
    fun pmax fuel seq ts plen p hp => (aac_frame_rtp_fields pmax fuel seq ts plen p hp).2.2,
    fun pmax fuel seq ts plen i hmax h0 hf => aac_frame_rtp_seq pmax fuel seq ts plen i hmax h0 hf⟩

theorem c7_rtp_stream_invariants_witness :
    (io_thread_a2dp_source_sbc_packets 10 5 [3, 4])[1]? =
      some { version := 2, paytype := 96, seq_number := 12, timestamp := 8 } := by
  exact (c7_rtp_stream_invariants.2.1 [3, 4] 10 5 1 (by decide) (by decide)).trans
    (by decide)

/-- Helper: invariants of the mSBC encode loop, by induction on the fuel:
each iteration consumes 240 PCM bytes, appends one 60-byte `struct msbc_frame`
record at the current count (bytes 0x01, H2 table entry, 0xAD syncword at
offsets 0, 1, 2), advances the 2-bit sequence counter, and never modifies
bytes below the initial count. -/
theorem encode_msbc_go_spec (encPayload : Nat → Nat → Nat) :
    ∀ (fuel : Nat) (st : sbc_state) (c0 : Nat),
      st.enc_frame_number < 4 →
      (∀ off, encPayload off 0 = MSBC_SYNC) →
      ∃ n,
        (iothread_encode_msbc_frames_go encPayload fuel st c0).2 =
          c0 + MSBC_PCM_LEN * n ∧
        (n = 0 ∨ c0 + MSBC_PCM_LEN * n ≤ st.enc_pcm_buffer_cnt) ∧
        (iothread_encode_msbc_frames_go encPayload fuel st c0).1.enc_buffer_cnt =
          st.enc_buffer_cnt + msbc_frame_sizeof * n ∧
        (iothread_encode_msbc_frames_go encPayload fuel st c0).1.enc_pcm_buffer_cnt =
          st.enc_pcm_buffer_cnt ∧
        (iothread_encode_msbc_frames_go encPayload fuel st c0).1.enc_buffer_size =
          st.enc_buffer_size ∧
        (iothread_encode_msbc_frames_go encPayload fuel st c0).1.enc_frame_number =
          (st.enc_frame_number + n) % 4 ∧
        (∀ j, j < st.enc_buffer_cnt →
          (iothread_encode_msbc_frames_go encPayload fuel st c0).1.enc_buffer j =
            st.enc_buffer j) ∧
        (∀ k, k < n →
          (iothread_encode_msbc_frames_go encPayload fuel st c0).1.enc_buffer
              (st.enc_buffer_cnt + msbc_frame_sizeof * k) = SCO_H2_HDR_0 ∧
          (iothread_encode_msbc_frames_go encPayload fuel st c0).1.enc_buffer
              (st.enc_buffer_cnt + msbc_frame_sizeof * k + 1) =
            h2_header_frame_number ((st.enc_frame_number + k) % 4) ∧
          (iothread_encode_msbc_frames_go encPayload fuel st c0).1.enc_buffer
              (st.enc_buffer_cnt + msbc_frame_sizeof * k + 2) = MSBC_SYNC) := by
  intro fuel
  induction fuel with
  | zero =>
    intro st c0 hfn hsync
    refine ⟨0, by simp [iothread_encode_msbc_frames_go], ?_⟩
    simp [iothread_encode_msbc_frames_go, Nat.mod_eq_of_lt hfn]
  | succ fuel ih =>
    intro st c0 hfn hsync
    rw [iothread_encode_msbc_frames_go]
    by_cases hc : st.enc_pcm_buffer_cnt - c0 ≥ MSBC_PCM_LEN ∧
        st.enc_buffer_size - st.enc_buffer_cnt ≥ SCO_H2_FRAME_LEN
    · rw [if_pos hc]
      set st1 : sbc_state :=
        { st with
            enc_buffer := write_msbc_frame st.enc_buffer st.enc_buffer_cnt
              st.enc_frame_number (encPayload c0),
            enc_frame_number := (st.enc_frame_number + 1) % 4,
            enc_buffer_cnt := st.enc_buffer_cnt + msbc_frame_sizeof } with hst1
      obtain ⟨n, h2, hbound, h3, h4, h5, h6, h7, h8⟩ :=
        ih st1 (c0 + MSBC_PCM_LEN) (Nat.mod_lt _ (by norm_num)) hsync
      refine ⟨n + 1, ?_, ?_, ?_, ?_, ?_, ?_, ?_, ?_⟩
      · rw [h2]; ring
      · right
        have hpcm : c0 + MSBC_PCM_LEN ≤ st.enc_pcm_buffer_cnt := by
          have := hc.1
          unfold MSBC_PCM_LEN at this ⊢
          omega
        have h1st : st1.enc_pcm_buffer_cnt = st.enc_pcm_buffer_cnt := rfl
        rcases hbound with hb | hb
        · subst hb; simpa using hpcm
        · rw [h1st] at hb
          have : MSBC_PCM_LEN * (n + 1) = MSBC_PCM_LEN + MSBC_PCM_LEN * n := by ring
          omega
      · rw [h3]
        show st.enc_buffer_cnt + msbc_frame_sizeof + msbc_frame_sizeof * n =
          st.enc_buffer_cnt + msbc_frame_sizeof * (n + 1)
        ring
      · rw [h4]
      · rw [h5]
      · rw [h6]
        show ((st.enc_frame_number + 1) % 4 + n) % 4 = (st.enc_frame_number + (n + 1)) % 4
        rw [Nat.mod_add_mod]
        congr 1
        ring
      · intro j hj
        rw [h7 j (by show j < st.enc_buffer_cnt + msbc_frame_sizeof; omega)]
        show write_msbc_frame st.enc_buffer st.enc_buffer_cnt st.enc_frame_number
          (encPayload c0) j = st.enc_buffer j
        unfold write_msbc_frame
        have e1 : ¬ j = st.enc_buffer_cnt := by omega
        have e2 : ¬ j = st.enc_buffer_cnt + 1 := by omega
        have e3 : ¬ (st.enc_buffer_cnt + 2 ≤ j ∧ j < st.enc_buffer_cnt + 2 + MSBC_FRAME_LEN) := by
          omega
        rw [if_neg e1, if_neg e2, if_neg e3]
      · intro k hk
        match k with
        | 0 =>
          have e0 : st.enc_buffer_cnt + msbc_frame_sizeof * 0 = st.enc_buffer_cnt := by ring
          have hlt1 : st.enc_buffer_cnt < st1.enc_buffer_cnt := by
            show st.enc_buffer_cnt < st.enc_buffer_cnt + msbc_frame_sizeof
            unfold msbc_frame_sizeof
            omega
          have hlt2 : st.enc_buffer_cnt + 1 < st1.enc_buffer_cnt := by
            show st.enc_buffer_cnt + 1 < st.enc_buffer_cnt + msbc_frame_sizeof
            unfold msbc_frame_sizeof
            omega
          have hlt3 : st.enc_buffer_cnt + 2 < st1.enc_buffer_cnt := by
            show st.enc_buffer_cnt + 2 < st.enc_buffer_cnt + msbc_frame_sizeof
            unfold msbc_frame_sizeof
            omega
          refine ⟨?_, ?_, ?_⟩
          · rw [e0, h7 _ hlt1, hst1]
            show write_msbc_frame st.enc_buffer st.enc_buffer_cnt st.enc_frame_number
              (encPayload c0) st.enc_buffer_cnt = _
            unfold write_msbc_frame
            simp
          · rw [e0, h7 _ hlt2, hst1]
            show write_msbc_frame st.enc_buffer st.enc_buffer_cnt st.enc_frame_number
              (encPayload c0) (st.enc_buffer_cnt + 1) = _
            unfold write_msbc_frame
            rw [if_neg (show ¬ st.enc_buffer_cnt + 1 = st.enc_buffer_cnt by omega),
              if_pos rfl, Nat.add_zero, Nat.mod_eq_of_lt hfn]
          · rw [e0, h7 _ hlt3, hst1]
            show write_msbc_frame st.enc_buffer st.enc_buffer_cnt st.enc_frame_number
              (encPayload c0) (st.enc_buffer_cnt + 2) = _
            unfold write_msbc_frame
            rw [if_neg (show ¬ st.enc_buffer_cnt + 2 = st.enc_buffer_cnt by omega),
              if_neg (show ¬ st.enc_buffer_cnt + 2 = st.enc_buffer_cnt + 1 by omega),
              if_pos (show st.enc_buffer_cnt + 2 ≤ st.enc_buffer_cnt + 2 ∧
                st.enc_buffer_cnt + 2 < st.enc_buffer_cnt + 2 + MSBC_FRAME_LEN by
                  unfold MSBC_FRAME_LEN; omega),
              Nat.sub_self, hsync c0]
        | k + 1 =>
          obtain ⟨g1, g2, g3⟩ := h8 k (by omega)
          have eoff : st1.enc_buffer_cnt + msbc_frame_sizeof * k =
              st.enc_buffer_cnt + msbc_frame_sizeof * (k + 1) := by
            show st.enc_buffer_cnt + msbc_frame_sizeof + msbc_frame_sizeof * k =
              st.enc_buffer_cnt + msbc_frame_sizeof * (k + 1)
            ring
          have efn : (st1.enc_frame_number + k) % 4 =
              (st.enc_frame_number + (k + 1)) % 4 := by
            show ((st.enc_frame_number + 1) % 4 + k) % 4 = (st.enc_frame_number + (k + 1)) % 4
            rw [Nat.mod_add_mod]
            congr 1
            ring
          rw [eoff] at g1 g2 g3
          rw [efn] at g2
          exact ⟨g1, g2, g3⟩
    · rw [if_neg hc]
      refine ⟨0, by simp, Or.inl rfl, by simp, rfl, rfl, by simp [Nat.mod_eq_of_lt hfn], fun j hj => rfl, fun k hk => by omega⟩


/-- C3 (amended): every mSBC frame record appended to the encoder output
buffer occupies `sizeof(struct msbc_frame)` = 60 bytes — a 2-byte H2 header,
the 57-byte mSBC payload, and one padding byte — so consecutive frames sit at
a 60-byte stride (not 59); within each record byte 0 is 0x01, byte 1 cycles
through 0x08, 0x38, 0xC8, 0xF8 keyed by the 2-bit sequence counter, and
byte 2 is the 0xAD syncword; each appended frame consumes 240 PCM bytes. -/
theorem c3_msbc_frame_layout (encPayload : Nat → Nat → Nat) (st : sbc_state)
    (hfn : st.enc_frame_number < 4)
    (hsync : ∀ off, encPayload off 0 = MSBC_SYNC) :
    ∃ n,
      (iothread_encode_msbc_frames encPayload st).enc_buffer_cnt =
        st.enc_buffer_cnt + msbc_frame_sizeof * n ∧
      (iothread_encode_msbc_frames encPayload st).enc_pcm_buffer_cnt =
        st.enc_pcm_buffer_cnt - MSBC_PCM_LEN * n ∧
      (iothread_encode_msbc_frames encPayload st).enc_frame_number =
        (st.enc_frame_number + n) % 4 ∧
      (∀ j, j < st.enc_buffer_cnt →
        (iothread_encode_msbc_frames encPayload st).enc_buffer j = st.enc_buffer j) ∧
      (∀ k, k < n →
        (iothread_encode_msbc_frames encPayload st).enc_buffer
            (st.enc_buffer_cnt + msbc_frame_sizeof * k) = SCO_H2_HDR_0 ∧
        (iothread_encode_msbc_frames encPayload st).enc_buffer
            (st.enc_buffer_cnt + msbc_frame_sizeof * k + 1) =
          h2_header_frame_number ((st.enc_frame_number + k) % 4) ∧
        (iothread_encode_msbc_frames encPayload st).enc_buffer
            (st.enc_buffer_cnt + msbc_frame_sizeof * k + 2) = MSBC_SYNC) := by
  obtain ⟨n, h2, hbound, h3, h4, h5, h6, h7, h8⟩ :=
    encode_msbc_go_spec encPayload st.enc_pcm_buffer_cnt st 0 hfn hsync
  refine ⟨n, h3, ?_, h6, h7, h8⟩
  show (iothread_encode_msbc_frames_go encPayload st.enc_pcm_buffer_cnt st 0).1.enc_pcm_buffer_cnt -
      (iothread_encode_msbc_frames_go encPayload st.enc_pcm_buffer_cnt st 0).2 = _
  rw [h4, h2, Nat.zero_add]

/-- C3 counterexample: starting from an empty 236-byte output buffer with 480
pending PCM bytes (two blocks), the encoder appends two frames and leaves
`enc_buffer_cnt = 120`, not 118 = 2 × 59: the second frame's 0x01 header is
at offset 60, byte 59 is the first frame's untouched padding byte, so frames
are not contiguous at a 59-byte stride as the claim states. -/
theorem c3_counterexample :
    (iothread_encode_msbc_frames (fun _ j => if j = 0 then 0xad else 0x11)
        ⟨fun _ => 0, 0, 236, 480, 0⟩).enc_buffer_cnt = 120 ∧
    (120 : Nat) ≠ 2 * SCO_H2_FRAME_LEN ∧
    (iothread_encode_msbc_frames (fun _ j => if j = 0 then 0xad else 0x11)
        ⟨fun _ => 0, 0, 236, 480, 0⟩).enc_buffer 60 = 0x01 ∧
    (iothread_encode_msbc_frames (fun _ j => if j = 0 then 0xad else 0x11)
        ⟨fun _ => 0, 0, 236, 480, 0⟩).enc_buffer 61 = 0x38 ∧
    (iothread_encode_msbc_frames (fun _ j => if j = 0 then 0xad else 0x11)
        ⟨fun _ => 0, 0, 236, 480, 0⟩).enc_buffer 62 = 0xad ∧
    ¬ ((iothread_encode_msbc_frames (fun _ j => if j = 0 then 0xad else 0x11)
        ⟨fun _ => 0, 0, 236, 480, 0⟩).enc_buffer 59 = 0x01) := by
  refine ⟨by decide, by decide, by decide, by decide, by decide, by decide⟩

theorem c3_msbc_frame_layout_witness :
    ∃ n, (iothread_encode_msbc_frames (fun _ j => if j = 0 then 0xad else 0x11)
        ⟨fun _ => 0, 0, 236, 480, 0⟩).enc_buffer_cnt = 0 + msbc_frame_sizeof * n := by
  obtain ⟨n, h1, _⟩ := c3_msbc_frame_layout (fun _ j => if j = 0 then 0xad else 0x11)
    ⟨fun _ => 0, 0, 236, 480, 0⟩ (by decide) (fun off => rfl)
  exact ⟨n, h1⟩

/-- C2 at the failing input: with cached gains (mic=3, spk=4) and SCO fields
(mic=3, spk=9), the event branch emits `\r\n+VGS=3\r\n` — the microphone
gain, not the new speaker gain 9 — because `sprintf(buffer, "+VGS=%d",
mic_gain)` formats the wrong variable; the `+VGM` side behaves as claimed. -/
theorem c2_vgs_formats_mic_gain :
    rfcomm_handle_event 3 4 3 9 = (3, 9, ["\r\n+VGS=3\r\n"]) ∧
    "\r\n+VGS=3\r\n" ≠ "\r\n+VGS=9\r\n" ∧
    rfcomm_handle_event 3 4 7 4 = (7, 4, ["\r\n+VGM=7\r\n"]) := by
  refine ⟨by decide, by decide, by decide⟩

/-- C5 counterexample: 768 = bits 8 and 9; bit 7 (codec negotiation, 128) is
*not* set in 768, so on input `AT+BRSF=768\r` the mSBC-enabled AG takes the
no-codec-negotiation path, forces the CVSD codec, and replies
`\r\n+BRSF: 64\r\n` (followed by the `OK` frame), not `\r\n+BRSF: 576\r\n`;
the HF features 768 are still stored. -/
theorem c5_counterexample :
    rfcomm_handle_brsf_line true ⟨2, 0⟩ ("AT+BRSF=768" ++ "\r").data =
      (⟨1, 768⟩, ["\r\n+BRSF: 64\r\n", "\r\nOK\r\n"]) ∧
    ¬ ((rfcomm_handle_brsf_line true ⟨2, 0⟩ ("AT+BRSF=768" ++ "\r").data).2 =
        ["\r\n+BRSF: 576\r\n", "\r\nOK\r\n"]) ∧
    (768 : Nat) &&& 128 = 0 := by
  refine ⟨by decide, by decide, by decide⟩

/-- C5 (amended): when the AG is built with mSBC and receives `AT+BRSF=896\r`
(HF features with bit 7, codec negotiation, set), the worker replies exactly
`\r\n+BRSF: 576\r\n` (AG feature bits 6 and 9), followed by the standard
`\r\nOK\r\n` acknowledgment, stores the HF features 896 in the paired SCO
transport, and leaves the selected codec unchanged. -/
theorem c5_brsf_mscb_capable (sco : sco_fields) :
    rfcomm_handle_brsf_line true sco ("AT+BRSF=896" ++ "\r").data =
      ({ sco with hf_features := 896 }, ["\r\n+BRSF: 576\r\n", "\r\nOK\r\n"]) := by
  have hp : at_parse (("AT+BRSF=896" ++ "\r").data)
      { type := at_cmd_type.SET, command := [], value := [] } =
      (0, { type := at_cmd_type.SET, command := "+BRSF".data,
            value := "896".data }) := by decide
  unfold rfcomm_handle_brsf_line
  rw [hp]
  rw [if_pos ⟨rfl, rfl⟩]
  unfold rfcomm_handle_brsf
  dsimp only
  rw [if_pos ⟨rfl, by decide⟩]
  dsimp only
  rw [show strtoul10 ['8', '9', '6'] 0 % 4294967296 = 896 from by decide,
    show io_thread_write_at_response ("+BRSF: " ++
      Nat.repr (HFP_AG_FEATURES ||| HFP_AG_FEAT_CODEC)) = "\r\n+BRSF: 576\r\n"
      from by decide,
    show io_thread_write_at_response "OK" = "\r\nOK\r\n" from by decide]
  rfl

/-- C8 counterexample: with an invalid BT socket (−1) and zero MTU, both A2DP
source workers still initialize successfully (given codec init, buffers and
FIFO succeed) and enter their IO loops — only the sink workers fail
fatally. -/
theorem c8_counterexample :
    io_thread_a2dp_source_sbc_ok (-1) 0 true true true = true ∧
    io_thread_a2dp_source_aac_ok (-1) 0 true true true true = true ∧
    io_thread_a2dp_sink_sbc_ok (-1) 0 true true = false ∧
    io_thread_a2dp_sink_aac_ok (-1) 0 true true true = false := by
  refine ⟨rfl, rfl, rfl, rfl⟩

/-- C8 (amended): at startup a BT socket FD of −1 or a non-positive MTU makes
the A2DP *sink* workers (SBC and AAC) fail fatally before their IO loops; the
A2DP *source* workers perform no such check — their initialization outcome
depends only on codec init, buffer allocation and FIFO open, and a too-small
`mtu_write` is merely raised to the minimum packet size. -/
theorem c8_init_checks (bt_fd : Int) (mtu : Nat)
    (h : bt_fd = -1 ∨ mtu = 0) :
    (∀ s b, io_thread_a2dp_sink_sbc_ok bt_fd mtu s b = false) ∧
    (∀ d p b, io_thread_a2dp_sink_aac_ok bt_fd mtu d p b = false) ∧
    (∀ s b f, io_thread_a2dp_source_sbc_ok bt_fd mtu s b f = (s && b && f)) ∧
    (∀ e p b f, io_thread_a2dp_source_aac_ok bt_fd mtu e p b f =
      (e && p && b && f)) ∧
    (∀ m, 0 < m → a2dp_source_sbc_mtu_write 0 m = m) := by
  refine ⟨?_, ?_, ?_, ?_, ?_⟩
  · intro s b
    unfold io_thread_a2dp_sink_sbc_ok
    rcases h with h | h
    · rw [if_pos h]
    · by_cases hb : bt_fd = -1
      · rw [if_pos hb]
      · rw [if_neg hb, if_pos (by omega)]
  · intro d p b
    unfold io_thread_a2dp_sink_aac_ok
    rcases h with h | h
    · rw [if_pos h]
    · by_cases hb : bt_fd = -1
      · rw [if_pos hb]
      · rw [if_neg hb, if_pos (by omega)]
  · intro s b f
    cases s <;> cases b <;> cases f <;> rfl
  · intro e p b f
    cases e <;> cases p <;> cases b <;> cases f <;> rfl
  · intro m hm
    unfold a2dp_source_sbc_mtu_write
    rw [if_pos hm]

theorem c8_init_checks_witness :
    io_thread_a2dp_sink_sbc_ok (-1) 672 true true = false := by
  exact (c8_init_checks (-1) 672 (Or.inl rfl)).1 true true

/-- Helper: a muted channel's scale is 0. -/
theorem ch_scale_muted (v : Nat) : ch_scale true v = 0 := rfl

/-- Helper: at volume 127 unmuted the exponent is 0, so the scale is exactly 1. -/
theorem ch_scale_full : ch_scale false 127 = 1 := by
  unfold ch_scale
  rw [if_neg (by simp)]
  have h : (((-64 : ℝ) + 64 * ((127 : Nat) : ℝ) / 127)) / 20 = 0 := by
    norm_num
  rw [h, Real.rpow_zero]

/-- Helper: scaling by 0 yields 0. -/
theorem scale_sample_zero (s : Int) : scale_sample 0 s = 0 := by
  unfold scale_sample
  rw [zero_mul, Int.floor_zero]
  norm_num

/-- Helper: scaling by 1 is the identity on in-range samples. -/
theorem scale_sample_one (s : Int) (h1 : -32768 ≤ s) (h2 : s ≤ 32767) :
    scale_sample 1 s = s := by
  unfold scale_sample
  rw [one_mul, Int.floor_intCast]
  omega

/-- Helper: pointwise characterization of the scaled buffer. -/
theorem snd_pcm_scale_get (s1 s2 : ℝ) (channels : Nat) :
    ∀ (xs : List Int) (i0 i : Nat),
      (snd_pcm_scale_s16le s1 s2 channels i0 xs)[i]? =
        (xs[i]?).map (fun x =>
          scale_sample (if channels = 1 ∨ (i0 + i) % 2 = 0 then s1 else s2) x) := by
  intro xs
  induction xs with
  | nil => intro i0 i; simp [snd_pcm_scale_s16le]
  | cons x xs ih =>
    intro i0 i
    rw [snd_pcm_scale_s16le]
    match i with
    | 0 =>
      simp only [List.getElem?_cons_zero, Option.map_some', Nat.add_zero]
    | i + 1 =>
      rw [List.getElem?_cons_succ, List.getElem?_cons_succ, ih (i0 + 1) i]
      have e : i0 + 1 + i = i0 + (i + 1) := by omega
      rw [e]

/-- Helper: scaling by 1 on both channels is the identity on in-range buffers. -/
theorem snd_pcm_scale_id (channels : Nat) :
    ∀ (xs : List Int) (i0 : Nat),
      (∀ x ∈ xs, -32768 ≤ x ∧ x ≤ 32767) →
      snd_pcm_scale_s16le 1 1 channels i0 xs = xs := by
  intro xs
  induction xs with
  | nil => intro i0 h; rfl
  | cons x xs ih =>
    intro i0 h
    rw [snd_pcm_scale_s16le, ite_self]
    rw [scale_sample_one x (h x (by simp)).1 (h x (by simp)).2,
      ih (i0 + 1) (fun y hy => h y (by simp [hy]))]

/-- C9: with A2DP volume pass-through disabled, the source worker scales each
16-bit sample by the channel scale `0` when muted and
`10^((−64 + 64·volume/127)/20)` otherwise (idealized over ℝ), clamping the
floor of the product to the 16-bit range; a muted channel's samples all
become 0, and at volume 127 unmuted the scale is exactly 1, so in-range
buffers pass through unchanged. -/
theorem c9_volume_scaler :
    (∀ v, ch_scale true v = 0) ∧
    (∀ v, ch_scale false v = (10 : ℝ) ^ ((((-64 : ℝ) + 64 * (v : ℝ) / 127)) / 20)) ∧
    ch_scale false 127 = 1 ∧
    (∀ (m1 m2 : Bool) (v1 v2 channels : Nat) (buffer : List Int) (i : Nat),
      (io_thread_scale_pcm m1 m2 v1 v2 buffer channels)[i]? =
        (buffer[i]?).map (fun x =>
          scale_sample
            (if channels = 1 ∨ i % 2 = 0 then ch_scale m1 v1 else ch_scale m2 v2) x)) ∧
    (∀ (m2 : Bool) (v1 v2 channels : Nat) (buffer : List Int) (i : Nat)
      (x : Int), (channels = 1 ∨ i % 2 = 0) → buffer[i]? = some x →
      (io_thread_scale_pcm true m2 v1 v2 buffer channels)[i]? = some 0) ∧
    (∀ (channels : Nat) (buffer : List Int),
      (∀ x ∈ buffer, -32768 ≤ x ∧ x ≤ 32767) →
      io_thread_scale_pcm false false 127 127 buffer channels = buffer) := by
  refine ⟨fun v => ch_scale_muted v, fun v => rfl, ch_scale_full, ?_, ?_, ?_⟩
  · intro m1 m2 v1 v2 channels buffer i
    unfold io_thread_scale_pcm
    rw [snd_pcm_scale_get _ _ _ buffer 0 i]
    simp only [Nat.zero_add]
  · intro m2 v1 v2 channels buffer i x hch hx
    unfold io_thread_scale_pcm
    rw [snd_pcm_scale_get _ _ _ buffer 0 i, hx]
    simp only [Nat.zero_add, Option.map_some']
    rw [if_pos hch, ch_scale_muted, scale_sample_zero]
  · intro channels buffer h
    unfold io_thread_scale_pcm
    rw [ch_scale_full, snd_pcm_scale_id channels buffer 0 h]

theorem c9_volume_scaler_witness :
    io_thread_scale_pcm false false 127 127 [100, -200] 2 = [100, -200] ∧
    (io_thread_scale_pcm true false 127 127 [100, -200] 1)[0]? = some 0 := by
  refine ⟨c9_volume_scaler.2.2.2.2.2 2 [100, -200] (by decide), ?_⟩
  exact c9_volume_scaler.2.2.2.2.1 false 127 127 1 [100, -200] 0 100
    (Or.inl rfl) (by decide)

theorem c6_time_sync_nonzero_witness :
    io_thread_time_sync ⟨0, 44100, 44100⟩ 500000000 44100 =
      (⟨0, 88200 % 4294967296, 44100⟩,
       decide (io_sync_audio_ns 44100 (if 88200 % 4294967296 > 44100 / 100 then
          88200 % 4294967296 - 44100 / 100 else 0) > 500000000 - 0),
       1000000 * (44100 / 44100) + 1000000 / 44100 * (44100 % 44100)) := by
  exact c6_time_sync_nonzero ⟨0, 44100, 44100⟩ 500000000 44100 (by decide) (by decide)

end BlueAlsa
